import Mathlib

/-!
# deepseek-go: the chat proxy of `src/main.go`

A shallow embedding of `chatHandler` and `makeRESTCall` and of the admission
gate (`mu`, `isProcessing`) they share.

* Go errors are their messages (`err.Error()`); `nil` is `none`.
* Everything outside the repository (the JSON codec for chat requests, URL
  parsing, the credential, the clock, the HTTP client) is a field of `Env`.
* Calls that leave the process are recorded, in order, in a trace of `Event`s.
* `log.Printf` lines write to the process log only and are left out.
-/

namespace DeepseekGo

/-! ## Data model (`main.go` lines 22-50) -/

/-- Configuration, `Config` of `main.go`; the template handle plays no part in the chat path. -/
structure Config where
  ModelDeploymentURL : String
  ModelName : String
  Port : String
  deriving DecidableEq, Repr

/-- One chat message. -/
structure Message where
  Role : String
  Content : String
  deriving DecidableEq, Repr

/-- Body of the REST call. -/
structure ChatRequest where
  Messages : List Message
  Model : String
  deriving DecidableEq, Repr

/-- Error message structure that is encoded as JSON. -/
structure ErrorResponse where
  Error : String
  deriving DecidableEq, Repr

/-- Handler group holding the application configuration. -/
structure handlers where
  config : Config
  deriving DecidableEq, Repr

/-! ## Collaborators outside the repository -/

/-- An `azcore.AccessToken`: the token string and its expiry instant. -/
structure AccessToken where
  Token : String
  ExpiresOn : Int
  deriving DecidableEq, Repr

/-- Go's `time.Time.After`: `t.After(u)` holds when `t` is strictly later than `u`. -/
def After (t u : Int) : Bool := decide (u < t)

/-- An outgoing `http.Request`: method, URL, body and header fields. -/
structure HttpRequest where
  Method : String
  URL : String
  Body : String
  Header : List (String × String)
  deriving DecidableEq, Repr

/-- Go `Header.Set`: the entries of the key are replaced by the single new value. -/
def HttpRequest.SetHeader (req : HttpRequest) (key value : String) : HttpRequest :=
  { req with Header := req.Header.filter (fun kv => kv.1 != key) ++ [(key, value)] }

/-- Go `Header.Get`: the first value stored under the key, or the empty string. -/
def HttpRequest.GetHeader (req : HttpRequest) (key : String) : String :=
  match req.Header.find? (fun kv => kv.1 == key) with
  | some kv => kv.2
  | none => ""

/-- An upstream `http.Response` as `makeRESTCall` uses it: the status code and the outcome of
`io.ReadAll(resp.Body)`. -/
structure HttpResponse where
  StatusCode : Nat
  Body : Except String String

/-- The incoming request as `chatHandler` uses it: its method and its body. -/
structure Request where
  Method : String
  Body : String
  deriving DecidableEq, Repr

/-- The world outside the repository.
* `Decode body` is `json.NewDecoder(r.Body).Decode(&req)` on a zero `ChatRequest`;
* `Marshal` is `json.Marshal` on a `ChatRequest`;
* `URLError url` is the error of `http.NewRequest` for that URL, if any;
* `GetToken k` is what `cred.GetToken` returns on the call preceded by `k` earlier calls;
* `Now` is the reading of `time.Now()`;
* `Do` is `client.Do`. -/
structure Env where
  Decode : String → Except String ChatRequest
  Marshal : ChatRequest → Except String String
  URLError : String → Option String
  GetToken : Nat → Except String AccessToken
  Now : Int
  Do : HttpRequest → Except String HttpResponse

/-- Calls that leave the handler, in the order they are made. -/
inductive Event where
  | decode (body : String)
  | getToken (scopes : List String)
  | httpDo (req : HttpRequest)
  deriving DecidableEq, Repr

/-- Number of `cred.GetToken` calls in a trace. -/
def tokenCalls : List Event → Nat
  | [] => 0
  | Event.getToken _ :: es => tokenCalls es + 1
  | _ :: es => tokenCalls es

/-- The requests handed to `client.Do` in a trace, in order. -/
def sentRequests : List Event → List HttpRequest
  | [] => []
  | Event.httpDo req :: es => req :: sentRequests es
  | _ :: es => sentRequests es

/-- Number of times the request body was read in a trace. -/
def bodyReads : List Event → Nat
  | [] => 0
  | Event.decode _ :: es => bodyReads es + 1
  | _ :: es => bodyReads es

/-- Go `http.NewRequest(method, url, body)`: fails when the URL does not parse, otherwise a request
with no header fields. -/
def NewRequest (env : Env) (method url body : String) : Except String HttpRequest :=
  match env.URLError url with
  | some err => .error err
  | none => .ok { Method := method, URL := url, Body := body, Header := [] }

/-! ## The response writer -/

/-- An `http.ResponseWriter` as a recorder: the status code (200 until a header is written),
whether the header went out, and the body written so far. -/
structure ResponseRecorder where
  Code : Nat
  wroteHeader : Bool
  Body : String
  deriving DecidableEq, Repr

/-- A fresh writer, as the server hands it to a handler. -/
def NewRecorder : ResponseRecorder := { Code := 200, wroteHeader := false, Body := "" }

/-- Go `w.WriteHeader(code)`: only the first call takes effect. -/
def ResponseRecorder.WriteHeader (w : ResponseRecorder) (code : Nat) : ResponseRecorder :=
  if w.wroteHeader then w else { w with Code := code, wroteHeader := true }

/-- Go `w.Write(data)`: sends a 200 header when none was written, then appends the data. -/
def ResponseRecorder.Write (w : ResponseRecorder) (data : String) : ResponseRecorder :=
  let w1 := if w.wroteHeader then w else w.WriteHeader 200
  { w1 with Body := w1.Body ++ data }

/-- Hexadecimal digit of a number below 16, lower case as `encoding/json` prints it. -/
def hexDigit (n : Nat) : Char :=
  if n < 10 then Char.ofNat (48 + n) else Char.ofNat (87 + n)

/-- The escape `\u00XY` or `\uWXYZ` of a code point below 65536. -/
def unicodeEscape (n : Nat) : String :=
  String.mk [Char.ofNat 92, Char.ofNat 117, hexDigit (n / 4096 % 16), hexDigit (n / 256 % 16),
    hexDigit (n / 16 % 16), hexDigit (n % 16)]

/-- One character of a JSON string as `encoding/json` writes it with HTML escaping on (the
default of an `Encoder`). -/
def jsonEscapeChar (c : Char) : String :=
  if c.toNat = 34 then "\\\""
  else if c.toNat = 92 then "\\\\"
  else if c.toNat = 10 then "\\n"
  else if c.toNat = 13 then "\\r"
  else if c.toNat = 9 then "\\t"
  else if c.toNat = 8 then "\\b"
  else if c.toNat = 12 then "\\f"
  else if c.toNat < 32 ∨ c.toNat = 60 ∨ c.toNat = 62 ∨ c.toNat = 38 ∨ c.toNat = 8232 ∨
      c.toNat = 8233 then
    unicodeEscape c.toNat
  else String.singleton c

/-- A Go string as a JSON string literal. -/
def jsonString (s : String) : String :=
  "\"" ++ String.join (s.toList.map jsonEscapeChar) ++ "\""

/-- The bytes `json.NewEncoder(w).Encode(e)` writes for an `ErrorResponse`. As documented for
Go's `encoding/json`, `Encode` writes the JSON encoding of the value (here the object with the
one field `error`) followed by a newline character. -/
def EncodeErrorResponse (e : ErrorResponse) : String :=
  "\x7b\"error\":" ++ jsonString e.Error ++ "\x7d\n"

/-- The call `json.NewEncoder(w).Encode(e)` on the response writer. -/
def ResponseRecorder.Encode (w : ResponseRecorder) (e : ErrorResponse) : ResponseRecorder :=
  w.Write (EncodeErrorResponse e)

/-! ## `makeRESTCall` (`main.go` lines 231-299) -/

/-- The scope the token is requested for. -/
def tokenScopes : List String := ["https://cognitiveservices.azure.com/.default"]

/-- Lines 280-281 of `makeRESTCall`: the two header fields set on the request. -/
def makeRESTCall.setHeaders (req : HttpRequest) (token : AccessToken) : HttpRequest :=
  let req := req.SetHeader "Content-Type" "application/json"
  req.SetHeader "Authorization" ("Bearer" ++ " " ++ token.Token)

/-- Lines 279-298 of `makeRESTCall`: set the two headers, send the request and read the body.
`evs` are the calls made so far. Returns Go's `(string, error)` and the calls made. -/
def makeRESTCall.send (env : Env) (req : HttpRequest) (token : AccessToken) (evs : List Event) :
    (String × Option String) × List Event :=
  let req := makeRESTCall.setHeaders req token
  match env.Do req with
  | .error err => (("", some ("failed to send request: " ++ err)), evs ++ [Event.httpDo req])
  | .ok resp =>
    match resp.Body with
    | .error err =>
      (("", some ("failed to read response body: " ++ err)), evs ++ [Event.httpDo req])
    | .ok body => ((body, none), evs ++ [Event.httpDo req])

/-- The function `makeRESTCall` of `main.go`. `calls` is the number of `cred.GetToken` calls
the process made before; the result is Go's `(string, error)` and the calls made by this run. -/
def makeRESTCall (env : Env) (h : handlers) (messages : List Message) (calls : Nat) :
    (String × Option String) × List Event :=
  let reqBodyStruct : ChatRequest := { Messages := messages, Model := h.config.ModelName }
  match env.Marshal reqBodyStruct with
  | .error err => (("", some ("failed to marshal request body: " ++ err)), [])
  | .ok reqBodyBytes =>
    match NewRequest env "POST" h.config.ModelDeploymentURL reqBodyBytes with
    | .error err => (("", some ("failed to create request: " ++ err)), [])
    | .ok req =>
      match env.GetToken calls with
      | .error err =>
        (("", some ("failed to get authentication token: " ++ err)), [Event.getToken tokenScopes])
      | .ok token =>
        if After env.Now token.ExpiresOn then
          match env.GetToken (calls + 1) with
          | .error err =>
            (("", some ("failed to refresh authentication token: " ++ err)),
              [Event.getToken tokenScopes, Event.getToken tokenScopes])
          | .ok newToken =>
            makeRESTCall.send env req newToken
              [Event.getToken tokenScopes, Event.getToken tokenScopes]
        else
          makeRESTCall.send env req token [Event.getToken tokenScopes]

/-! ## `chatHandler` (`main.go` lines 160-223), one call run to completion -/

/-- Process-wide state: the admission flag and the calls made so far. -/
structure State where
  isProcessing : Bool
  trace : List Event
  deriving DecidableEq, Repr

/-- The system message put in front of every conversation (line 210). -/
def systemMessage : Message := { Role := "system", Content := "You are a helpful assistant" }

/-- Lines 182-191: under `mu`, test the flag; when it is set leave it and report `false`,
otherwise set it and report `true`. -/
def acquire (s : State) : Bool × State :=
  if s.isProcessing then (false, s) else (true, { s with isProcessing := true })

/-- Lines 194-198, the deferred function: under `mu`, clear the flag. -/
def release (s : State) : State := { s with isProcessing := false }

/-- Lines 200-222: what an admitted request does between acquiring the gate and the deferred
reset. -/
def chatHandler.admitted (env : Env) (h : handlers) (w : ResponseRecorder) (r : Request)
    (s : State) : ResponseRecorder × State :=
  let s := { s with trace := s.trace ++ [Event.decode r.Body] }
  match env.Decode r.Body with
  | .error _ =>
    let w := w.WriteHeader 400
    (w.Encode { Error := "Invalid request" }, s)
  | .ok req =>
    let req : ChatRequest := { req with Messages := [systemMessage] ++ req.Messages }
    let out := makeRESTCall env h req.Messages (tokenCalls s.trace)
    let s := { s with trace := s.trace ++ out.2 }
    match out.1 with
    | (_, some _) =>
      let w := w.WriteHeader 500
      (w.Encode { Error := "REST call failed" }, s)
    | (response, none) => (w.Write response, s)

/-- The function `chatHandler` of `main.go`. -/
def chatHandler (env : Env) (h : handlers) (w : ResponseRecorder) (r : Request) (s : State) :
    ResponseRecorder × State :=
  if r.Method == "OPTIONS" then (w.WriteHeader 200, s)
  else if r.Method != "POST" then
    let w := w.WriteHeader 405
    (w.Encode { Error := "Method not allowed" }, s)
  else
    match acquire s with
    | (false, s) =>
      let w := w.WriteHeader 429
      (w.Encode { Error := "A request is currently in progress, please retry later." }, s)
    | (true, s) =>
      let out := chatHandler.admitted env h w r s
      (out.1, release out.2)

/-! ## Concurrent runs of `chatHandler` (`main.go` lines 168-198)

Each request is served by its own goroutine. A goroutine stands at a program point named after
the line of `main.go` it executes next; one step executes that line. The goroutines share `mu`
and `isProcessing`, and a schedule says which goroutine moves next. -/

/-- Program points of a goroutine running `chatHandler`.
* `l169`: the method tests of lines 169-179;
* `l182`: at `mu.Lock()`;
* `l183`: holding `mu`, at the test of `isProcessing`;
* `l184`: holding `mu` after finding the flag set, at `mu.Unlock()`;
* `l186`: answering 429 and returning;
* `l190`: holding `mu` after finding the flag clear, at `isProcessing = true`;
* `l191`: holding `mu` with the flag set, at `mu.Unlock()`;
* `l202`: decoding the body (and answering 400 when that fails);
* `l213`: `makeRESTCall` in flight (then answering 500 or 200);
* `l195`: in the deferred function, at `mu.Lock()`;
* `l196`: in the deferred function holding `mu`, at `isProcessing = false`;
* `l197`: in the deferred function holding `mu`, at `mu.Unlock()`;
* `done`: returned. -/
inductive PC where
  | l169 | l182 | l183 | l184 | l186 | l190 | l191 | l202 | l213 | l195 | l196 | l197 | done
  deriving DecidableEq, Repr

/-- The process: who holds `mu` (if anyone), the flag, and where each goroutine stands. -/
structure Process where
  mu : Option Nat
  isProcessing : Bool
  pc : Nat → PC

/-- Goroutine `i` moves to program point `p`. -/
def Process.goto (s : Process) (i : Nat) (p : PC) : Process :=
  { s with pc := fun j => if j = i then p else s.pc j }

/-- One step of goroutine `i`, whose request has method `meth i`; `ok` tells whether its body
decodes. A goroutine at `mu.Lock()` does not move while `mu` is held. -/
def Process.step (meth : Nat → String) (s : Process) (i : Nat) (ok : Bool) : Process :=
  match s.pc i with
  | .l169 =>
    if meth i == "OPTIONS" then s.goto i .done
    else if meth i != "POST" then s.goto i .done
    else s.goto i .l182
  | .l182 =>
    match s.mu with
    | some _ => s
    | none => { s.goto i .l183 with mu := some i }
  | .l183 => if s.isProcessing then s.goto i .l184 else s.goto i .l190
  | .l184 => { s.goto i .l186 with mu := none }
  | .l186 => s.goto i .done
  | .l190 => { s.goto i .l191 with isProcessing := true }
  | .l191 => { s.goto i .l202 with mu := none }
  | .l202 => if ok then s.goto i .l213 else s.goto i .l195
  | .l213 => s.goto i .l195
  | .l195 =>
    match s.mu with
    | some _ => s
    | none => { s.goto i .l196 with mu := some i }
  | .l196 => { s.goto i .l197 with isProcessing := false }
  | .l197 => { s.goto i .done with mu := none }
  | .done => s

/-- The process at start: `mu` free, the flag clear, every request still to be served. -/
def Process.init : Process := { mu := none, isProcessing := false, pc := fun _ => .l169 }

/-- The process after a schedule: each entry names the goroutine that takes the next step. -/
def Process.run (meth : Nat → String) (sched : List (Nat × Bool)) : Process :=
  sched.foldl (fun s e => s.step meth e.1 e.2) Process.init

/-- The program points at which a goroutine holds `mu`. -/
def holdsMu : PC → Bool
  | .l183 | .l184 | .l190 | .l191 | .l196 | .l197 => true
  | _ => false

/-- The program points between setting `isProcessing = true` (line 190 executed) and the
deferred reset (line 196 not yet executed). -/
def inGate : PC → Bool
  | .l191 | .l202 | .l213 | .l195 | .l196 => true
  | _ => false

/-- What holds of every reachable process: `mu` is held by exactly the goroutines at a point
where they hold it; a goroutine in the gate implies the flag; at most one goroutine is in the
gate; a goroutine about to set the flag sees it clear. -/
structure Inv (s : Process) : Prop where
  lock : ∀ i, holdsMu (s.pc i) = true ↔ s.mu = some i
  flag : ∀ i, inGate (s.pc i) = true → s.isProcessing = true
  uniq : ∀ i j, inGate (s.pc i) = true → inGate (s.pc j) = true → i = j
  clear : ∀ i, s.pc i = .l190 → s.isProcessing = false

/-! ## Concrete inputs used by the witnesses -/

/-- A configuration like the one of the tests. -/
def sampleHandlers : handlers :=
  { config := { ModelDeploymentURL := "http://example.com", ModelName := "DeepSeek-R1",
                Port := "3000" } }

/-- JSON object of one message, for the sample worlds. -/
def sampleMarshalMessage (m : Message) : String :=
  "\x7b\"role\":" ++ jsonString m.Role ++ ",\"content\":" ++ jsonString m.Content ++ "\x7d"

/-- JSON object of a chat request, for the sample worlds. -/
def sampleMarshal (c : ChatRequest) : String :=
  "\x7b\"messages\":[" ++ ",".intercalate (c.Messages.map sampleMarshalMessage) ++
    "],\"model\":" ++ jsonString c.Model ++ "\x7d"

/-- A world in which no body decodes and the credential fails with `token error`. -/
def failingEnv : Env :=
  { Decode := fun _ => .error "invalid character"
    Marshal := fun req => .ok (sampleMarshal req)
    URLError := fun _ => none
    GetToken := fun _ => .error "token error"
    Now := 100
    Do := fun _ => .error "connection refused" }

/-- A world in which every body decodes to one user message with a client-chosen model, the
credential hands out `stale` (expired at 50) and then `fresh` (valid until 1000), the time is
`now`, and the upstream answers status `code` with body `invalid-json`. -/
def mockEnv (now : Int) (code : Nat) : Env :=
  { Decode := fun _ => .ok { Messages := [{ Role := "user", Content := "Hello" }], Model := "gpt" }
    Marshal := fun req => .ok (sampleMarshal req)
    URLError := fun _ => none
    GetToken := fun k => if k = 0 then .ok { Token := "stale", ExpiresOn := 50 }
                         else .ok { Token := "fresh", ExpiresOn := 1000 }
    Now := now
    Do := fun _ => .ok { StatusCode := code, Body := .ok "invalid-json" } }

/-- The same world with the status code of every upstream response replaced through `f`. -/
def withStatus (env : Env) (f : Nat → Nat) : Env :=
  { env with
    Do := fun req =>
      match env.Do req with
      | .error e => .error e
      | .ok resp => .ok { resp with StatusCode := f resp.StatusCode } }

/-- A chat POST. -/
def samplePost : Request := { Method := "POST", Body := "hello" }

/-- The state of an idle process. -/
def idle : State := { isProcessing := false, trace := [] }

/-- The state while another request holds the gate. -/
def busyState : State := { isProcessing := true, trace := [] }

/-! ## Definitions used to state the lemmas -/

/-- The request `makeRESTCall` builds from a payload (line 248), before the headers are set. -/
def builtRequest (h : handlers) (payload : String) : HttpRequest :=
  { Method := "POST", URL := h.config.ModelDeploymentURL, Body := payload, Header := [] }

/-- The token `makeRESTCall` ends up with (lines 255-274), when it gets one: the first if it
is still valid, the second otherwise. -/
def tokenInUse (env : Env) (calls : Nat) : Except String AccessToken :=
  match env.GetToken calls with
  | .error e => .error e
  | .ok t0 => if After env.Now t0.ExpiresOn then env.GetToken (calls + 1) else .ok t0

/-- Every goroutine sends a POST. -/
def allPost : Nat → String := fun _ => "POST"

/-- A schedule of two goroutines: goroutine 0 is admitted and reaches `makeRESTCall`; goroutine
1 waits for `mu`, then finds the flag set and heads for the 429 answer. -/
def sampleSchedule : List (Nat × Bool) :=
  [(0, true), (1, true), (0, true), (1, true), (0, true), (0, true), (0, true), (0, true),
   (1, true), (1, true), (1, true)]

/-! ## Lemmas on traces and on the response writer -/

/-- Token calls of a trace made of two parts. -/
theorem tokenCalls_append (xs ys : List Event) :
    tokenCalls (xs ++ ys) = tokenCalls xs + tokenCalls ys := by
  induction xs with
  | nil => simp [tokenCalls]
  | cons x xs ih =>
    cases x <;> simp [tokenCalls, ih]
    omega

/-- Requests sent in a trace made of two parts. -/
theorem sentRequests_append (xs ys : List Event) :
    sentRequests (xs ++ ys) = sentRequests xs ++ sentRequests ys := by
  induction xs with
  | nil => simp [sentRequests]
  | cons x xs ih => cases x <;> simp [sentRequests, ih]

/-- Body reads of a trace made of two parts. -/
theorem bodyReads_append (xs ys : List Event) :
    bodyReads (xs ++ ys) = bodyReads xs + bodyReads ys := by
  induction xs with
  | nil => simp [bodyReads]
  | cons x xs ih =>
    cases x <;> simp [bodyReads, ih]
    omega

/-- Writing a status and then an encoded error on a fresh writer. -/
theorem encode_after_header (code : Nat) (e : ErrorResponse) :
    (NewRecorder.WriteHeader code).Encode e =
      { Code := code, wroteHeader := true, Body := EncodeErrorResponse e } := by
  simp [ResponseRecorder.Encode, ResponseRecorder.Write, ResponseRecorder.WriteHeader,
    NewRecorder]

/-- Writing data on a fresh writer sends status 200. -/
theorem write_fresh (data : String) :
    NewRecorder.Write data = { Code := 200, wroteHeader := true, Body := data } := by
  simp [ResponseRecorder.Write, ResponseRecorder.WriteHeader, NewRecorder]

/-- Reading a header field back right after setting it. -/
theorem getHeader_setHeader (req : HttpRequest) (key value : String) :
    (req.SetHeader key value).GetHeader key = value := by
  have hfind : ∀ l : List (String × String),
      List.find? (fun kv => kv.1 == key) (l.filter (fun kv => kv.1 != key) ++ [(key, value)]) =
        some (key, value) := by
    intro l
    induction l with
    | nil => simp
    | cons kv l ih =>
      by_cases hk : kv.1 = key
      · simp [List.filter_cons, hk, ih]
      · simp [List.filter_cons, hk, List.find?_cons, ih]
  simp [HttpRequest.SetHeader, HttpRequest.GetHeader, hfind]

/-- The Authorization field of the request that goes out. -/
theorem authorization_header (req : HttpRequest) (token : AccessToken) :
    (makeRESTCall.setHeaders req token).GetHeader "Authorization" = "Bearer " ++ token.Token := by
  have hb : "Bearer" ++ " " = "Bearer " := by decide
  simp only [makeRESTCall.setHeaders, getHeader_setHeader, ← String.append_assoc, hb]

/-- Setting the headers leaves method, URL and body alone. -/
theorem setHeaders_fields (req : HttpRequest) (token : AccessToken) :
    (makeRESTCall.setHeaders req token).Method = req.Method ∧
    (makeRESTCall.setHeaders req token).URL = req.URL ∧
    (makeRESTCall.setHeaders req token).Body = req.Body :=
  ⟨rfl, rfl, rfl⟩

/-! ## Lemmas on `makeRESTCall` -/

/-- The calls `send` makes: those made before, then the one request. -/
theorem send_events (env : Env) (req : HttpRequest) (token : AccessToken) (evs : List Event) :
    (makeRESTCall.send env req token evs).2 =
      evs ++ [Event.httpDo (makeRESTCall.setHeaders req token)] := by
  simp only [makeRESTCall.send]
  cases env.Do (makeRESTCall.setHeaders req token) with
  | error e => rfl
  | ok resp => rcases resp with ⟨st, _ | _⟩ <;> rfl

/-- The result of `send`, by the outcome of the transport. -/
theorem send_result (env : Env) (req : HttpRequest) (token : AccessToken) (evs : List Event) :
    (makeRESTCall.send env req token evs).1 =
      match env.Do (makeRESTCall.setHeaders req token) with
      | .error err => ("", some ("failed to send request: " ++ err))
      | .ok resp =>
        match resp.Body with
        | .error err => ("", some ("failed to read response body: " ++ err))
        | .ok body => (body, none) := by
  simp only [makeRESTCall.send]
  cases env.Do (makeRESTCall.setHeaders req token) with
  | error e => rfl
  | ok resp => rcases resp with ⟨st, _ | _⟩ <;> rfl

/-- The call of `NewRequest` succeeds exactly when the URL parses, with the request built from its
arguments. -/
theorem newRequest_ok (env : Env) (h : handlers) (payload : String) (req : HttpRequest)
    (hr : NewRequest env "POST" h.config.ModelDeploymentURL payload = .ok req) :
    env.URLError h.config.ModelDeploymentURL = none ∧ req = builtRequest h payload := by
  unfold NewRequest at hr
  cases hu : env.URLError h.config.ModelDeploymentURL with
  | some e => simp [hu] at hr
  | none =>
    simp only [hu, Except.ok.injEq] at hr
    exact ⟨rfl, hr.symm⟩

/-- The run when marshalling fails (line 242). -/
theorem makeRESTCall_of_marshal_error (env : Env) (h : handlers) (messages : List Message)
    (calls : Nat) (e : String)
    (hm : env.Marshal { Messages := messages, Model := h.config.ModelName } = .error e) :
    makeRESTCall env h messages calls =
      (("", some ("failed to marshal request body: " ++ e)), []) := by
  simp [makeRESTCall, hm]

/-- The run when the request cannot be created (line 250). -/
theorem makeRESTCall_of_create_error (env : Env) (h : handlers) (messages : List Message)
    (calls : Nat) (payload e : String)
    (hm : env.Marshal { Messages := messages, Model := h.config.ModelName } = .ok payload)
    (hu : env.URLError h.config.ModelDeploymentURL = some e) :
    makeRESTCall env h messages calls = (("", some ("failed to create request: " ++ e)), []) := by
  simp [makeRESTCall, hm, NewRequest, hu]

/-- The run when the first token call fails (line 259). -/
theorem makeRESTCall_of_token_error (env : Env) (h : handlers) (messages : List Message)
    (calls : Nat) (payload e : String)
    (hm : env.Marshal { Messages := messages, Model := h.config.ModelName } = .ok payload)
    (hu : env.URLError h.config.ModelDeploymentURL = none)
    (ht : env.GetToken calls = .error e) :
    makeRESTCall env h messages calls =
      (("", some ("failed to get authentication token: " ++ e)),
        [Event.getToken tokenScopes]) := by
  simp [makeRESTCall, hm, NewRequest, hu, ht]

/-- The run when the first token is expired and the refresh fails (line 271). -/
theorem makeRESTCall_of_refresh_error (env : Env) (h : handlers) (messages : List Message)
    (calls : Nat) (payload e : String) (t0 : AccessToken)
    (hm : env.Marshal { Messages := messages, Model := h.config.ModelName } = .ok payload)
    (hu : env.URLError h.config.ModelDeploymentURL = none)
    (ht : env.GetToken calls = .ok t0) (hx : After env.Now t0.ExpiresOn = true)
    (ht1 : env.GetToken (calls + 1) = .error e) :
    makeRESTCall env h messages calls =
      (("", some ("failed to refresh authentication token: " ++ e)),
        [Event.getToken tokenScopes, Event.getToken tokenScopes]) := by
  simp [makeRESTCall, hm, NewRequest, hu, ht, hx, ht1]

/-- The run when the first token is expired and the refresh succeeds. -/
theorem makeRESTCall_of_refreshed (env : Env) (h : handlers) (messages : List Message)
    (calls : Nat) (payload : String) (t0 t1 : AccessToken)
    (hm : env.Marshal { Messages := messages, Model := h.config.ModelName } = .ok payload)
    (hu : env.URLError h.config.ModelDeploymentURL = none)
    (ht : env.GetToken calls = .ok t0) (hx : After env.Now t0.ExpiresOn = true)
    (ht1 : env.GetToken (calls + 1) = .ok t1) :
    makeRESTCall env h messages calls =
      makeRESTCall.send env (builtRequest h payload) t1
        [Event.getToken tokenScopes, Event.getToken tokenScopes] := by
  simp [makeRESTCall, hm, NewRequest, hu, ht, hx, ht1, builtRequest]

/-- The run when the first token is still valid. -/
theorem makeRESTCall_of_valid (env : Env) (h : handlers) (messages : List Message)
    (calls : Nat) (payload : String) (t0 : AccessToken)
    (hm : env.Marshal { Messages := messages, Model := h.config.ModelName } = .ok payload)
    (hu : env.URLError h.config.ModelDeploymentURL = none)
    (ht : env.GetToken calls = .ok t0) (hx : After env.Now t0.ExpiresOn = false) :
    makeRESTCall env h messages calls =
      makeRESTCall.send env (builtRequest h payload) t0 [Event.getToken tokenScopes] := by
  simp [makeRESTCall, hm, NewRequest, hu, ht, hx, builtRequest]

/-- Every request `makeRESTCall` hands to the client is the one built from the marshalled
`ChatRequest` and carries the token in use. -/
theorem makeRESTCall_sent (env : Env) (h : handlers) (messages : List Message) (calls : Nat)
    (req : HttpRequest) (hreq : Event.httpDo req ∈ (makeRESTCall env h messages calls).2) :
    ∃ payload tok,
      env.Marshal { Messages := messages, Model := h.config.ModelName } = .ok payload ∧
      env.URLError h.config.ModelDeploymentURL = none ∧
      tokenInUse env calls = .ok tok ∧
      req = makeRESTCall.setHeaders (builtRequest h payload) tok ∧
      (makeRESTCall env h messages calls).1 = (makeRESTCall.send env (builtRequest h payload)
        tok []).1 := by
  cases hm : env.Marshal { Messages := messages, Model := h.config.ModelName } with
  | error e => simp [makeRESTCall_of_marshal_error env h messages calls e hm] at hreq
  | ok payload =>
    cases hu : env.URLError h.config.ModelDeploymentURL with
    | some e => simp [makeRESTCall_of_create_error env h messages calls payload e hm hu] at hreq
    | none =>
      cases ht : env.GetToken calls with
      | error e =>
        simp [makeRESTCall_of_token_error env h messages calls payload e hm hu ht] at hreq
      | ok t0 =>
        cases hx : After env.Now t0.ExpiresOn with
        | false =>
          rw [makeRESTCall_of_valid env h messages calls payload t0 hm hu ht hx] at hreq ⊢
          simp [send_events] at hreq
          exact ⟨payload, t0, rfl, rfl, by simp [tokenInUse, ht, hx], hreq,
            by simp [send_result]⟩
        | true =>
          cases ht1 : env.GetToken (calls + 1) with
          | error e =>
            simp [makeRESTCall_of_refresh_error env h messages calls payload e t0 hm hu ht hx
              ht1] at hreq
          | ok t1 =>
            rw [makeRESTCall_of_refreshed env h messages calls payload t0 t1 hm hu ht hx ht1]
              at hreq ⊢
            simp [send_events] at hreq
            exact ⟨payload, t1, rfl, rfl, by simp [tokenInUse, ht, hx, ht1], hreq,
              by simp [send_result]⟩

/-- No run of `makeRESTCall` reads the body of the incoming request. -/
theorem makeRESTCall_bodyReads (env : Env) (h : handlers) (messages : List Message)
    (calls : Nat) : bodyReads (makeRESTCall env h messages calls).2 = 0 := by
  cases hm : env.Marshal { Messages := messages, Model := h.config.ModelName } with
  | error e => simp [makeRESTCall_of_marshal_error env h messages calls e hm, bodyReads]
  | ok payload =>
    cases hu : env.URLError h.config.ModelDeploymentURL with
    | some e =>
      simp [makeRESTCall_of_create_error env h messages calls payload e hm hu, bodyReads]
    | none =>
      cases ht : env.GetToken calls with
      | error e =>
        simp [makeRESTCall_of_token_error env h messages calls payload e hm hu ht, bodyReads]
      | ok t0 =>
        cases hx : After env.Now t0.ExpiresOn with
        | false =>
          simp [makeRESTCall_of_valid env h messages calls payload t0 hm hu ht hx, send_events,
            bodyReads]
        | true =>
          cases ht1 : env.GetToken (calls + 1) with
          | error e =>
            simp [makeRESTCall_of_refresh_error env h messages calls payload e t0 hm hu ht hx
              ht1, bodyReads]
          | ok t1 =>
            simp [makeRESTCall_of_refreshed env h messages calls payload t0 t1 hm hu ht hx
              ht1, send_events, bodyReads]

/-- When the client answers the request `makeRESTCall` sent with a readable body, that body is
the result and the error is `nil`. -/
theorem makeRESTCall_passthrough (env : Env) (h : handlers) (messages : List Message)
    (calls : Nat) (req : HttpRequest) (st : Nat) (b : String)
    (hreq : Event.httpDo req ∈ (makeRESTCall env h messages calls).2)
    (hresp : env.Do req = .ok { StatusCode := st, Body := .ok b }) :
    (makeRESTCall env h messages calls).1 = (b, none) := by
  obtain ⟨payload, tok, -, -, -, hreq', hres⟩ := makeRESTCall_sent env h messages calls req hreq
  rw [hres, send_result, ← hreq', hresp]

/-- A run of `makeRESTCall` that returns no error sent exactly one request. -/
theorem makeRESTCall_success_sent (env : Env) (h : handlers) (messages : List Message)
    (calls : Nat) (hok : (makeRESTCall env h messages calls).1.2 = none) :
    ∃ req, sentRequests (makeRESTCall env h messages calls).2 = [req] ∧
      Event.httpDo req ∈ (makeRESTCall env h messages calls).2 := by
  cases hm : env.Marshal { Messages := messages, Model := h.config.ModelName } with
  | error e => simp [makeRESTCall_of_marshal_error env h messages calls e hm] at hok
  | ok payload =>
    cases hu : env.URLError h.config.ModelDeploymentURL with
    | some e => simp [makeRESTCall_of_create_error env h messages calls payload e hm hu] at hok
    | none =>
      cases ht : env.GetToken calls with
      | error e =>
        simp [makeRESTCall_of_token_error env h messages calls payload e hm hu ht] at hok
      | ok t0 =>
        cases hx : After env.Now t0.ExpiresOn with
        | false =>
          simp [makeRESTCall_of_valid env h messages calls payload t0 hm hu ht hx, send_events,
            sentRequests]
        | true =>
          cases ht1 : env.GetToken (calls + 1) with
          | error e =>
            simp [makeRESTCall_of_refresh_error env h messages calls payload e t0 hm hu ht hx
              ht1] at hok
          | ok t1 =>
            simp [makeRESTCall_of_refreshed env h messages calls payload t0 t1 hm hu ht hx
              ht1, send_events, sentRequests]

/-- Replacing the status code of the upstream responses does not change `makeRESTCall`. -/
theorem makeRESTCall_withStatus (env : Env) (h : handlers) (f : Nat → Nat)
    (messages : List Message) (calls : Nat) :
    makeRESTCall (withStatus env f) h messages calls = makeRESTCall env h messages calls := by
  have hsend : ∀ (req : HttpRequest) (token : AccessToken) (evs : List Event),
      makeRESTCall.send (withStatus env f) req token evs =
        makeRESTCall.send env req token evs := by
    intro req token evs
    simp only [makeRESTCall.send, withStatus]
    cases env.Do (makeRESTCall.setHeaders req token) with
    | error e => rfl
    | ok resp => rcases resp with ⟨st, _ | _⟩ <;> rfl
  simp only [makeRESTCall, hsend]
  rfl

/-! ## Lemmas on `chatHandler` -/

/-- What an admitted request does, by the outcome of decoding and of the REST call. -/
theorem admitted_eq (env : Env) (h : handlers) (r : Request) (s : State) :
    chatHandler.admitted env h NewRecorder r s =
      match env.Decode r.Body with
      | .error _ =>
        ({ Code := 400, wroteHeader := true,
           Body := EncodeErrorResponse { Error := "Invalid request" } },
         { s with trace := s.trace ++ [Event.decode r.Body] })
      | .ok req =>
        let out := makeRESTCall env h (systemMessage :: req.Messages) (tokenCalls s.trace)
        (match out.1 with
          | (_, some _) =>
            { Code := 500, wroteHeader := true,
              Body := EncodeErrorResponse { Error := "REST call failed" } }
          | (response, none) => { Code := 200, wroteHeader := true, Body := response },
         { s with trace := s.trace ++ Event.decode r.Body :: out.2 }) := by
  unfold chatHandler.admitted
  cases hd : env.Decode r.Body with
  | error e => simp [encode_after_header]
  | ok req =>
    simp only [tokenCalls_append, tokenCalls, List.singleton_append, Nat.add_zero]
    rcases hout : (makeRESTCall env h (systemMessage :: req.Messages) (tokenCalls s.trace)).1
      with ⟨body, _ | err⟩
    · simp [hout, write_fresh]
    · simp [hout, encode_after_header]

/-- An admitted POST runs the admitted part with the flag set and then the deferred reset. -/
theorem chatHandler_post_free (env : Env) (h : handlers) (w : ResponseRecorder) (r : Request)
    (s : State) (hPost : r.Method = "POST") (hFree : s.isProcessing = false) :
    chatHandler env h w r s =
      ((chatHandler.admitted env h w r { s with isProcessing := true }).1,
       release (chatHandler.admitted env h w r { s with isProcessing := true }).2) := by
  simp [chatHandler, hPost, acquire, hFree]

/-! ## Lemmas on concurrent runs -/

/-- The invariant holds at start. -/
theorem Inv_init : Inv Process.init := by
  constructor <;> simp [Process.init, holdsMu, inGate]

/-- The program points after a move. -/
@[simp]
theorem goto_pc (s : Process) (i : Nat) (p : PC) (j : Nat) :
    (s.goto i p).pc j = if j = i then p else s.pc j := rfl

/-- A move leaves the lock alone. -/
@[simp]
theorem goto_mu (s : Process) (i : Nat) (p : PC) : (s.goto i p).mu = s.mu := rfl

/-- A move leaves the flag alone. -/
@[simp]
theorem goto_isProcessing (s : Process) (i : Nat) (p : PC) :
    (s.goto i p).isProcessing = s.isProcessing := rfl

/-- A goroutine about to set the flag holds the lock. -/
theorem holdsMu_l190 {p : PC} (h : holdsMu p = false) : p ≠ .l190 := by
  intro hp
  subst hp
  simp [holdsMu] at h

/-- A goroutine about to set the flag is not yet in the gate. -/
theorem inGate_l190 {p : PC} (h : inGate p = true) : p ≠ .l190 := by
  intro hp
  subst hp
  simp [inGate] at h

/-- A step that changes neither who holds `mu` nor who is in the gate. -/
theorem Inv_move (s : Process) (i : Nat) (p : PC) (hI : Inv s)
    (hh : holdsMu p = holdsMu (s.pc i)) (hg : inGate p = inGate (s.pc i))
    (hc : p = .l190 → s.isProcessing = false) : Inv (s.goto i p) := by
  obtain ⟨hmu, hflag, huniq, hclear⟩ := hI
  have key : ∀ j, inGate ((s.goto i p).pc j) = inGate (s.pc j) := by
    intro j
    by_cases hj : j = i
    · subst hj; simp [hg]
    · simp [hj]
  refine ⟨?_, ?_, ?_, ?_⟩
  · intro j
    by_cases hj : j = i
    · subst hj; simpa [hh] using hmu j
    · simpa [hj] using hmu j
  · intro j hj
    rw [key] at hj
    exact hflag j hj
  · intro j k hj hk
    rw [key] at hj hk
    exact huniq j k hj hk
  · intro j hj
    by_cases hji : j = i
    · subst hji
      simp at hj
      exact hc hj
    · simp [hji] at hj
      exact hclear j hj

/-- The step `mu.Lock()` succeeding for goroutine `i`. -/
theorem Inv_lock (s : Process) (i : Nat) (p : PC) (hI : Inv s) (hfree : s.mu = none)
    (hh : holdsMu p = true) (hg : inGate p = inGate (s.pc i)) (hc : p ≠ .l190) :
    Inv { s.goto i p with mu := some i } := by
  obtain ⟨hmu, hflag, huniq, hclear⟩ := hI
  have key : ∀ j, inGate ((s.goto i p).pc j) = inGate (s.pc j) := by
    intro j
    by_cases hj : j = i
    · subst hj; simp [hg]
    · simp [hj]
  refine ⟨?_, ?_, ?_, ?_⟩
  · intro j
    by_cases hj : j = i
    · subst hj; simp [hh]
    · have := hmu j
      simp only [hfree] at this
      simp [hj, this]
      exact fun h => hj h.symm
  · intro j hj
    exact hflag j (by rw [← key]; exact hj)
  · intro j k hj hk
    exact huniq j k (by rw [← key]; exact hj) (by rw [← key]; exact hk)
  · intro j hj
    by_cases hji : j = i
    · subst hji
      simp at hj
      exact absurd hj hc
    · simp [hji] at hj
      exact hclear j hj

/-- The step `mu.Unlock()` by the goroutine `i` that holds it. -/
theorem Inv_unlock (s : Process) (i : Nat) (p : PC) (hI : Inv s)
    (hheld : holdsMu (s.pc i) = true)
    (hh : holdsMu p = false) (hg : inGate p = inGate (s.pc i)) :
    Inv { s.goto i p with mu := none } := by
  obtain ⟨hmu, hflag, huniq, hclear⟩ := hI
  have hown : s.mu = some i := (hmu i).1 hheld
  have key : ∀ j, inGate ((s.goto i p).pc j) = inGate (s.pc j) := by
    intro j
    by_cases hj : j = i
    · subst hj; simp [hg]
    · simp [hj]
  refine ⟨?_, ?_, ?_, ?_⟩
  · intro j
    by_cases hj : j = i
    · subst hj; simp [hh]
    · have := hmu j
      simp only [hown, Option.some.injEq] at this
      simp [hj, this]
      exact fun h => hj h.symm
  · intro j hj
    exact hflag j (by rw [← key]; exact hj)
  · intro j k hj hk
    exact huniq j k (by rw [← key]; exact hj) (by rw [← key]; exact hk)
  · intro j hj
    by_cases hji : j = i
    · subst hji
      simp at hj
      exact absurd hj (holdsMu_l190 hh)
    · simp [hji] at hj
      exact hclear j hj

/-- Line 190: the holder of `mu` that found the flag clear sets it. -/
theorem Inv_set (s : Process) (i : Nat) (hI : Inv s) (hpc : s.pc i = .l190) :
    Inv { s.goto i .l191 with isProcessing := true } := by
  obtain ⟨hmu, hflag, huniq, hclear⟩ := hI
  have hoff : s.isProcessing = false := hclear i hpc
  have hnone : ∀ j, inGate (s.pc j) = false := by
    intro j
    cases hj : inGate (s.pc j) with
    | false => rfl
    | true => simp [hflag j hj] at hoff
  have hown : s.mu = some i := (hmu i).1 (by simp [hpc, holdsMu])
  refine ⟨?_, ?_, ?_, ?_⟩
  · intro j
    by_cases hj : j = i
    · subst hj; simp [holdsMu, hown]
    · simpa [hj] using hmu j
  · intro j _
    rfl
  · intro j k hj hk
    by_cases hji : j = i <;> by_cases hki : k = i
    · rw [hji, hki]
    · simp [hki, hnone k] at hk
    · simp [hji, hnone j] at hj
    · simp [hji, hnone j] at hj
  · intro j hj
    by_cases hji : j = i
    · subst hji; simp at hj
    · simp [hji] at hj
      have h1 : s.mu = some j := (hmu j).1 (by simp [hj, holdsMu])
      rw [hown] at h1
      exact absurd (Option.some.inj h1).symm hji

/-- Line 196: the deferred function, holding `mu`, clears the flag. -/
theorem Inv_reset (s : Process) (i : Nat) (hI : Inv s) (hpc : s.pc i = .l196) :
    Inv { s.goto i .l197 with isProcessing := false } := by
  obtain ⟨hmu, hflag, huniq, hclear⟩ := hI
  have hin : inGate (s.pc i) = true := by simp [hpc, inGate]
  have hown : s.mu = some i := (hmu i).1 (by simp [hpc, holdsMu])
  refine ⟨?_, ?_, ?_, ?_⟩
  · intro j
    by_cases hj : j = i
    · subst hj; simp [holdsMu, hown]
    · simpa [hj] using hmu j
  · intro j hj
    by_cases hji : j = i
    · subst hji; simp [inGate] at hj
    · simp [hji] at hj
      exact absurd (huniq j i hj hin) hji
  · intro j k hj hk
    by_cases hji : j = i
    · subst hji; simp [inGate] at hj
    · by_cases hki : k = i
      · subst hki; simp [inGate] at hk
      · simp [hji] at hj
        simp [hki] at hk
        exact huniq j k hj hk
  · intro j _
    rfl

/-- Every step of every goroutine keeps the invariant. -/
theorem Inv_step (meth : Nat → String) (s : Process) (i : Nat) (ok : Bool) (hI : Inv s) :
    Inv (s.step meth i ok) := by
  unfold Process.step
  cases hpc : s.pc i with
  | l169 =>
    simp only []
    split
    · exact Inv_move s i _ hI (by simp [hpc, holdsMu]) (by simp [hpc, inGate]) (by simp)
    · split
      · exact Inv_move s i _ hI (by simp [hpc, holdsMu]) (by simp [hpc, inGate]) (by simp)
      · exact Inv_move s i _ hI (by simp [hpc, holdsMu]) (by simp [hpc, inGate]) (by simp)
  | l182 =>
    simp only []
    cases hm : s.mu with
    | some k => simpa using hI
    | none =>
      exact Inv_lock s i _ hI hm (by simp [holdsMu]) (by simp [hpc, inGate]) (by simp)
  | l183 =>
    simp only []
    cases hp : s.isProcessing with
    | true => exact Inv_move s i _ hI (by simp [hpc, holdsMu]) (by simp [hpc, inGate]) (by simp)
    | false =>
      exact Inv_move s i _ hI (by simp [hpc, holdsMu]) (by simp [hpc, inGate]) (fun _ => hp)
  | l184 =>
    exact Inv_unlock s i _ hI (by simp [hpc, holdsMu]) (by simp [holdsMu]) (by simp [hpc, inGate])
  | l186 => exact Inv_move s i _ hI (by simp [hpc, holdsMu]) (by simp [hpc, inGate]) (by simp)
  | l190 => exact Inv_set s i hI hpc
  | l191 =>
    exact Inv_unlock s i _ hI (by simp [hpc, holdsMu]) (by simp [holdsMu]) (by simp [hpc, inGate])
  | l202 =>
    simp only []
    cases ok with
    | true => exact Inv_move s i _ hI (by simp [hpc, holdsMu]) (by simp [hpc, inGate]) (by simp)
    | false => exact Inv_move s i _ hI (by simp [hpc, holdsMu]) (by simp [hpc, inGate]) (by simp)
  | l213 => exact Inv_move s i _ hI (by simp [hpc, holdsMu]) (by simp [hpc, inGate]) (by simp)
  | l195 =>
    simp only []
    cases hm : s.mu with
    | some k => simpa using hI
    | none =>
      exact Inv_lock s i _ hI hm (by simp [holdsMu]) (by simp [hpc, inGate]) (by simp)
  | l196 => exact Inv_reset s i hI hpc
  | l197 =>
    exact Inv_unlock s i _ hI (by simp [hpc, holdsMu]) (by simp [holdsMu]) (by simp [hpc, inGate])
  | done => simpa using hI

/-- The invariant holds after every schedule. -/
theorem Inv_run (meth : Nat → String) (sched : List (Nat × Bool)) : Inv (Process.run meth sched) := by
  unfold Process.run
  induction sched using List.reverseRecOn with
  | nil => exact Inv_init
  | append_singleton xs x ih =>
    rw [List.foldl_append]
    exact Inv_step meth _ x.1 x.2 ih

/-! ## The claims -/

/-- C1: whatever the requests and however the steps of their goroutines interleave, two
different goroutines are never both between setting isProcessing = true and the deferred
reset; in particular no two calls of makeRESTCall are in flight at the same instant. -/
theorem gate_mutual_exclusion (meth : Nat → String) (sched : List (Nat × Bool)) (i j : Nat)
    (hij : i ≠ j) :
    ¬ (inGate ((Process.run meth sched).pc i) = true ∧
        inGate ((Process.run meth sched).pc j) = true) ∧
    ¬ ((Process.run meth sched).pc i = PC.l213 ∧ (Process.run meth sched).pc j = PC.l213) := by
  have hI := Inv_run meth sched
  constructor
  · rintro ⟨hi, hj⟩
    exact hij (hI.uniq i j hi hj)
  · rintro ⟨hi, hj⟩
    exact hij (hI.uniq i j (by simp [hi, inGate]) (by simp [hj, inGate]))

/-- Witness of C1: goroutine 0 has its call in flight while goroutine 1, which asked for the
gate in between, is on its way to the 429 answer. -/
theorem gate_mutual_exclusion_witness :
    (Process.run allPost sampleSchedule).pc 0 = PC.l213 ∧
    (Process.run allPost sampleSchedule).pc 1 = PC.l186 ∧
    ¬ (inGate ((Process.run allPost sampleSchedule).pc 0) = true ∧
        inGate ((Process.run allPost sampleSchedule).pc 1) = true) :=
  ⟨by decide, by decide, (gate_mutual_exclusion allPost sampleSchedule 0 1 (by decide)).1⟩

/-- C2: a POST that finds isProcessing true is answered 429 with the JSON encoding of the
error "A request is currently in progress, please retry later.", and the state comes back
unchanged: the flag is still true and nothing was added to the trace (no body read, no token
call, no upstream call). A POST that finds the flag false acquires the gate, setting the flag
to true, and runs the admitted part under it. -/
theorem chatHandler_busy_or_admitted (env : Env) (h : handlers) (r : Request) (s : State)
    (hPost : r.Method = "POST") :
    (s.isProcessing = true →
      chatHandler env h NewRecorder r s =
        ({ Code := 429, wroteHeader := true,
           Body := EncodeErrorResponse
             { Error := "A request is currently in progress, please retry later." } }, s) ∧
      (chatHandler env h NewRecorder r s).2.isProcessing = true ∧
      bodyReads (chatHandler env h NewRecorder r s).2.trace = bodyReads s.trace ∧
      sentRequests (chatHandler env h NewRecorder r s).2.trace = sentRequests s.trace) ∧
    (s.isProcessing = false →
      acquire s = (true, { s with isProcessing := true }) ∧
      chatHandler env h NewRecorder r s =
        ((chatHandler.admitted env h NewRecorder r { s with isProcessing := true }).1,
         release (chatHandler.admitted env h NewRecorder r { s with isProcessing := true }).2) ∧
      bodyReads (chatHandler env h NewRecorder r s).2.trace = bodyReads s.trace + 1) := by
  constructor
  · intro hBusy
    have hrun : chatHandler env h NewRecorder r s =
        ({ Code := 429, wroteHeader := true,
           Body := EncodeErrorResponse
             { Error := "A request is currently in progress, please retry later." } }, s) := by
      simp [chatHandler, hPost, acquire, hBusy, encode_after_header]
    simp [hrun, hBusy]
  · intro hFree
    refine ⟨by simp [acquire, hFree], chatHandler_post_free env h _ r s hPost hFree, ?_⟩
    rw [chatHandler_post_free env h _ r s hPost hFree, admitted_eq]
    cases env.Decode r.Body <;>
      simp [release, bodyReads_append, bodyReads, makeRESTCall_bodyReads]

/-- Witness of C2: a POST arriving at a busy gate, with the bytes of its answer, and the
acquisition at an idle gate. -/
theorem chatHandler_busy_or_admitted_witness :
    (chatHandler failingEnv sampleHandlers NewRecorder samplePost busyState =
      ({ Code := 429, wroteHeader := true,
         Body := "\x7b\"error\":\"A request is currently in progress, please retry later.\"\x7d\n" },
       busyState)) ∧
    acquire idle = (true, busyState) :=
  ⟨((chatHandler_busy_or_admitted failingEnv sampleHandlers samplePost busyState rfl).1 rfl).1,
   ((chatHandler_busy_or_admitted failingEnv sampleHandlers samplePost idle rfl).2 rfl).1⟩

/-- C3: a POST that acquired the gate leaves isProcessing false when chatHandler returns, on
each of its three exit paths: the body does not decode (400), the REST call fails (500), the
REST call succeeds (200). -/
theorem chatHandler_releases_gate (env : Env) (h : handlers) (r : Request) (s : State)
    (hPost : r.Method = "POST") (hFree : s.isProcessing = false) :
    (acquire s).1 = true ∧
    (chatHandler env h NewRecorder r s).2.isProcessing = false ∧
    (∀ e, env.Decode r.Body = .error e → (chatHandler env h NewRecorder r s).1.Code = 400) ∧
    (∀ req e, env.Decode r.Body = .ok req →
      (makeRESTCall env h (systemMessage :: req.Messages) (tokenCalls s.trace)).1.2 = some e →
      (chatHandler env h NewRecorder r s).1.Code = 500) ∧
    (∀ req, env.Decode r.Body = .ok req →
      (makeRESTCall env h (systemMessage :: req.Messages) (tokenCalls s.trace)).1.2 = none →
      (chatHandler env h NewRecorder r s).1.Code = 200) := by
  rw [chatHandler_post_free env h _ r s hPost hFree, admitted_eq]
  refine ⟨by simp [acquire, hFree], ?_, ?_, ?_, ?_⟩
  · cases env.Decode r.Body <;> simp [release]
  · intro e hd
    simp [hd]
  · intro req e hd hres
    rcases hout : (makeRESTCall env h (systemMessage :: req.Messages) (tokenCalls s.trace)).1
      with ⟨body, err⟩
    rw [hout] at hres
    simp only at hres
    subst hres
    simp [hd, hout]
  · intro req hd hres
    rcases hout : (makeRESTCall env h (systemMessage :: req.Messages) (tokenCalls s.trace)).1
      with ⟨body, err⟩
    rw [hout] at hres
    simp only at hres
    subst hres
    simp [hd, hout]

/-- Witness of C3: the three exit paths, each returning with the flag cleared. -/
theorem chatHandler_releases_gate_witness :
    (chatHandler failingEnv sampleHandlers NewRecorder samplePost idle).2.isProcessing = false ∧
    (chatHandler failingEnv sampleHandlers NewRecorder samplePost idle).1.Code = 400 ∧
    (chatHandler { failingEnv with Decode := (mockEnv 10 200).Decode } sampleHandlers NewRecorder
      samplePost idle).2.isProcessing = false ∧
    (chatHandler { failingEnv with Decode := (mockEnv 10 200).Decode } sampleHandlers NewRecorder
      samplePost idle).1.Code = 500 ∧
    (chatHandler (mockEnv 10 200) sampleHandlers NewRecorder samplePost idle).2.isProcessing
      = false ∧
    (chatHandler (mockEnv 10 200) sampleHandlers NewRecorder samplePost idle).1.Code = 200 :=
  ⟨(chatHandler_releases_gate failingEnv sampleHandlers samplePost idle rfl rfl).2.1,
   (chatHandler_releases_gate failingEnv sampleHandlers samplePost idle rfl rfl).2.2.1
     "invalid character" rfl,
   (chatHandler_releases_gate { failingEnv with Decode := (mockEnv 10 200).Decode }
     sampleHandlers samplePost idle rfl rfl).2.1,
   (chatHandler_releases_gate { failingEnv with Decode := (mockEnv 10 200).Decode }
     sampleHandlers samplePost idle rfl rfl).2.2.2.1 _
     "failed to get authentication token: token error" rfl (by decide),
   (chatHandler_releases_gate (mockEnv 10 200) sampleHandlers samplePost idle rfl rfl).2.1,
   (chatHandler_releases_gate (mockEnv 10 200) sampleHandlers samplePost idle rfl rfl).2.2.2.2
     _ rfl (by decide)⟩

/-- C4: in makeRESTCall, once the request is marshalled and created and the first GetToken
call returns a token t0: if now is strictly after t0's expiry, GetToken is called exactly
twice, nothing is sent when the second call fails, and when it returns t1 the calls are the
two GetToken calls followed by the one request, whose Authorization is "Bearer " followed by
t1; if now is not after the expiry, GetToken is called exactly once and the request sent
after it carries "Bearer " followed by t0. -/
theorem makeRESTCall_token_refresh (env : Env) (h : handlers) (messages : List Message)
    (calls : Nat) (payload : String) (req : HttpRequest) (t0 : AccessToken)
    (hm : env.Marshal { Messages := messages, Model := h.config.ModelName } = .ok payload)
    (hr : NewRequest env "POST" h.config.ModelDeploymentURL payload = .ok req)
    (h0 : env.GetToken calls = .ok t0) :
    (env.Now > t0.ExpiresOn →
      tokenCalls (makeRESTCall env h messages calls).2 = 2 ∧
      (∀ e, env.GetToken (calls + 1) = .error e →
        sentRequests (makeRESTCall env h messages calls).2 = []) ∧
      (∀ t1, env.GetToken (calls + 1) = .ok t1 →
        (makeRESTCall env h messages calls).2 =
          [Event.getToken tokenScopes, Event.getToken tokenScopes,
           Event.httpDo (makeRESTCall.setHeaders req t1)] ∧
        (makeRESTCall.setHeaders req t1).GetHeader "Authorization" = "Bearer " ++ t1.Token)) ∧
    (¬ env.Now > t0.ExpiresOn →
      tokenCalls (makeRESTCall env h messages calls).2 = 1 ∧
      (makeRESTCall env h messages calls).2 =
        [Event.getToken tokenScopes, Event.httpDo (makeRESTCall.setHeaders req t0)] ∧
      (makeRESTCall.setHeaders req t0).GetHeader "Authorization" = "Bearer " ++ t0.Token) := by
  obtain ⟨hu, hreq⟩ := newRequest_ok env h payload req hr
  subst hreq
  constructor
  · intro hexp
    have hx : After env.Now t0.ExpiresOn = true := by simpa [After] using hexp
    cases ht1 : env.GetToken (calls + 1) with
    | error e =>
      rw [makeRESTCall_of_refresh_error env h messages calls payload e t0 hm hu h0 hx ht1]
      simp [tokenCalls, sentRequests]
    | ok t1 =>
      rw [makeRESTCall_of_refreshed env h messages calls payload t0 t1 hm hu h0 hx ht1]
      refine ⟨by simp [send_events, tokenCalls_append, tokenCalls], by simp, ?_⟩
      intro t1' ht1'
      cases ht1'
      exact ⟨by simp [send_events], authorization_header _ t1⟩
  · intro hexp
    have hx : After env.Now t0.ExpiresOn = false := by simpa [After] using hexp
    rw [makeRESTCall_of_valid env h messages calls payload t0 hm hu h0 hx]
    exact ⟨by simp [send_events, tokenCalls_append, tokenCalls], by simp [send_events],
      authorization_header _ t0⟩

/-- Witness of C4: the same credential at time 100, when its first token (expiry 50) is stale
and the refreshed one is sent, and at time 10, when the first token is sent. -/
theorem makeRESTCall_token_refresh_witness :
    (tokenCalls (makeRESTCall (mockEnv 100 200) sampleHandlers [] 0).2 = 2 ∧
      (makeRESTCall.setHeaders
        (builtRequest sampleHandlers (sampleMarshal { Messages := [], Model := "DeepSeek-R1" }))
        { Token := "fresh", ExpiresOn := 1000 }).GetHeader "Authorization" = "Bearer fresh") ∧
    (tokenCalls (makeRESTCall (mockEnv 10 200) sampleHandlers [] 0).2 = 1 ∧
      (makeRESTCall.setHeaders
        (builtRequest sampleHandlers (sampleMarshal { Messages := [], Model := "DeepSeek-R1" }))
        { Token := "stale", ExpiresOn := 50 }).GetHeader "Authorization" = "Bearer stale") :=
  have hstale := (makeRESTCall_token_refresh (mockEnv 100 200) sampleHandlers [] 0
    (sampleMarshal { Messages := [], Model := "DeepSeek-R1" })
    (builtRequest sampleHandlers (sampleMarshal { Messages := [], Model := "DeepSeek-R1" }))
    { Token := "stale", ExpiresOn := 50 } rfl rfl rfl).1 (by decide)
  have hvalid := (makeRESTCall_token_refresh (mockEnv 10 200) sampleHandlers [] 0
    (sampleMarshal { Messages := [], Model := "DeepSeek-R1" })
    (builtRequest sampleHandlers (sampleMarshal { Messages := [], Model := "DeepSeek-R1" }))
    { Token := "stale", ExpiresOn := 50 } rfl rfl rfl).2 (by decide)
  ⟨⟨hstale.1, (hstale.2.2 { Token := "fresh", ExpiresOn := 1000 } rfl).2⟩,
   ⟨hvalid.1, hvalid.2.2⟩⟩

/-- C6: for an admitted POST whose body decodes to the message list ms and any model value,
the calls of the run are the body read followed by those of makeRESTCall on the message
{role "system", content "You are a helpful assistant"} followed by ms (one message more than
ms, in the same order); every request that run sends has as body the marshalled ChatRequest
with exactly these messages and the configured ModelName, the decoded model value playing no
part; and a run that returns without error sent exactly one such request. -/
theorem chatHandler_upstream_payload (env : Env) (h : handlers) (r : Request) (s : State)
    (ms : List Message) (model : String)
    (hPost : r.Method = "POST") (hFree : s.isProcessing = false)
    (hDec : env.Decode r.Body = .ok { Messages := ms, Model := model }) :
    (chatHandler env h NewRecorder r s).2.trace =
      s.trace ++ Event.decode r.Body ::
        (makeRESTCall env h
          ({ Role := "system", Content := "You are a helpful assistant" } :: ms)
          (tokenCalls s.trace)).2 ∧
    (({ Role := "system", Content := "You are a helpful assistant" } : Message) :: ms).length =
      ms.length + 1 ∧
    (∀ req, Event.httpDo req ∈
        (makeRESTCall env h
          ({ Role := "system", Content := "You are a helpful assistant" } :: ms)
          (tokenCalls s.trace)).2 →
      env.Marshal
        { Messages := { Role := "system", Content := "You are a helpful assistant" } :: ms,
          Model := h.config.ModelName } = .ok req.Body) ∧
    ((makeRESTCall env h
        ({ Role := "system", Content := "You are a helpful assistant" } :: ms)
        (tokenCalls s.trace)).1.2 = none →
      ∃ req, sentRequests
        (makeRESTCall env h
          ({ Role := "system", Content := "You are a helpful assistant" } :: ms)
          (tokenCalls s.trace)).2 = [req]) := by
  have hsys : systemMessage = { Role := "system", Content := "You are a helpful assistant" } :=
    rfl
  refine ⟨?_, rfl, ?_, ?_⟩
  · rw [chatHandler_post_free env h _ r s hPost hFree, admitted_eq]
    simp [hDec, release, hsys]
  · intro req hreq
    obtain ⟨payload, tok, hm, -, -, hreq', -⟩ := makeRESTCall_sent env h _ _ req hreq
    subst hreq'
    exact hm
  · intro hok
    obtain ⟨req, hsent, -⟩ := makeRESTCall_success_sent env h _ _ hok
    exact ⟨req, hsent⟩

/-- Witness of C6: the client asks for model `gpt` with one user message; the one request
sent has as body the system message, the user message and the configured model, spelled out
in bytes. -/
theorem chatHandler_upstream_payload_witness :
    (sentRequests
      (chatHandler (mockEnv 10 200) sampleHandlers NewRecorder samplePost idle).2.trace).map
        (fun req => req.Body) =
      ["\x7b\"messages\":[\x7b\"role\":\"system\",\"content\":\"You are a helpful assistant\"\x7d,\x7b\"role\":\"user\",\"content\":\"Hello\"\x7d],\"model\":\"DeepSeek-R1\"\x7d"] ∧
    (mockEnv 10 200).Marshal
      { Messages := [{ Role := "system", Content := "You are a helpful assistant" },
                     { Role := "user", Content := "Hello" }],
        Model := "DeepSeek-R1" } =
      .ok "\x7b\"messages\":[\x7b\"role\":\"system\",\"content\":\"You are a helpful assistant\"\x7d,\x7b\"role\":\"user\",\"content\":\"Hello\"\x7d],\"model\":\"DeepSeek-R1\"\x7d" :=
  have hw := chatHandler_upstream_payload (mockEnv 10 200) sampleHandlers samplePost idle
    [{ Role := "user", Content := "Hello" }] "gpt" rfl rfl rfl
  ⟨by rw [hw.1]; decide,
   hw.2.2.1
    (makeRESTCall.setHeaders (builtRequest sampleHandlers
      "\x7b\"messages\":[\x7b\"role\":\"system\",\"content\":\"You are a helpful assistant\"\x7d,\x7b\"role\":\"user\",\"content\":\"Hello\"\x7d],\"model\":\"DeepSeek-R1\"\x7d")
      { Token := "stale", ExpiresOn := 50 })
    (by decide)⟩

/-- C7, as stated, fails: on an admitted POST whose body fails to decode the answer is 400
but its body is not the bare object; a newline follows it. -/
theorem invalid_body_answer_not_bare :
    samplePost.Method = "POST" ∧ idle.isProcessing = false ∧
    failingEnv.Decode samplePost.Body = .error "invalid character" ∧
    (chatHandler failingEnv sampleHandlers NewRecorder samplePost idle).1.Code = 400 ∧
    (chatHandler failingEnv sampleHandlers NewRecorder samplePost idle).1.Body ≠
      "\x7b\"error\":\"Invalid request\"\x7d" :=
  ⟨rfl, rfl, rfl, by decide, by decide⟩

/-- C7, amended: an admitted POST whose body fails to decode (the call of Decode on it returns
an error) is answered 400 with the body `{"error":"Invalid request"}` followed by one newline;
the only call made is the read of the body (no token call, no upstream call), and the flag is
false on return. -/
theorem chatHandler_invalid_body (env : Env) (h : handlers) (r : Request) (s : State)
    (e : String) (hPost : r.Method = "POST") (hFree : s.isProcessing = false)
    (hDec : env.Decode r.Body = .error e) :
    chatHandler env h NewRecorder r s =
      ({ Code := 400, wroteHeader := true,
         Body := "\x7b\"error\":\"Invalid request\"\x7d\n" },
       { isProcessing := false, trace := s.trace ++ [Event.decode r.Body] }) ∧
    sentRequests (chatHandler env h NewRecorder r s).2.trace = sentRequests s.trace ∧
    tokenCalls (chatHandler env h NewRecorder r s).2.trace = tokenCalls s.trace := by
  have henc : EncodeErrorResponse { Error := "Invalid request" } =
      "\x7b\"error\":\"Invalid request\"\x7d\n" := by decide
  have hrun : chatHandler env h NewRecorder r s =
      ({ Code := 400, wroteHeader := true,
         Body := "\x7b\"error\":\"Invalid request\"\x7d\n" },
       { isProcessing := false, trace := s.trace ++ [Event.decode r.Body] }) := by
    rw [chatHandler_post_free env h _ r s hPost hFree, admitted_eq]
    simp [hDec, release, henc]
  simp [hrun, sentRequests_append, sentRequests, tokenCalls_append, tokenCalls]

/-- Witness of the amended C7. -/
theorem chatHandler_invalid_body_witness :
    chatHandler failingEnv sampleHandlers NewRecorder samplePost idle =
      ({ Code := 400, wroteHeader := true,
         Body := "\x7b\"error\":\"Invalid request\"\x7d\n" },
       { isProcessing := false, trace := [Event.decode "hello"] }) :=
  (chatHandler_invalid_body failingEnv sampleHandlers samplePost idle "invalid character" rfl
    rfl rfl).1

/-- C8: when the request was marshalled and created and the call to GetToken fails with
cause e, makeRESTCall returns the empty string and the error
"failed to get authentication token: " followed by e; the one GetToken call is the only call
it made: no request went to the upstream and the token fetch was not repeated. -/
theorem makeRESTCall_token_failure (env : Env) (h : handlers) (messages : List Message)
    (calls : Nat) (payload e : String) (req : HttpRequest)
    (hm : env.Marshal { Messages := messages, Model := h.config.ModelName } = .ok payload)
    (hr : NewRequest env "POST" h.config.ModelDeploymentURL payload = .ok req)
    (ht : env.GetToken calls = .error e) :
    (makeRESTCall env h messages calls).1 =
      ("", some ("failed to get authentication token: " ++ e)) ∧
    (makeRESTCall env h messages calls).2 = [Event.getToken tokenScopes] ∧
    sentRequests (makeRESTCall env h messages calls).2 = [] ∧
    tokenCalls (makeRESTCall env h messages calls).2 = 1 := by
  rw [makeRESTCall_of_token_error env h messages calls payload e hm
    (newRequest_ok env h payload req hr).1 ht]
  simp [sentRequests, tokenCalls]

/-- Witness of C8: the credential of the test, failing with `token error`. -/
theorem makeRESTCall_token_failure_witness :
    (makeRESTCall failingEnv sampleHandlers [{ Role := "user", Content := "Hello" }] 0).1 =
      ("", some "failed to get authentication token: token error") ∧
    sentRequests
      (makeRESTCall failingEnv sampleHandlers [{ Role := "user", Content := "Hello" }] 0).2 = [] ∧
    tokenCalls
      (makeRESTCall failingEnv sampleHandlers [{ Role := "user", Content := "Hello" }] 0).2 = 1 :=
  have hw := makeRESTCall_token_failure failingEnv sampleHandlers
    [{ Role := "user", Content := "Hello" }] 0 _ "token error" _ rfl rfl rfl
  ⟨hw.1, hw.2.2.1, hw.2.2.2⟩

/-- C9: every OPTIONS request to chatHandler, whatever its body and whatever the admission
flag, is answered with status 200 and an empty body, and the process state (the flag and the
record of body reads, token calls and upstream calls) is returned as it was. -/
theorem chatHandler_options (env : Env) (h : handlers) (r : Request) (s : State)
    (hOpt : r.Method = "OPTIONS") :
    chatHandler env h NewRecorder r s =
      ({ Code := 200, wroteHeader := true, Body := "" }, s) := by
  simp [chatHandler, hOpt, ResponseRecorder.WriteHeader, NewRecorder]

/-- Witness of C9 on an OPTIONS request with a body, arriving while the gate is held. -/
theorem chatHandler_options_witness :
    chatHandler failingEnv sampleHandlers NewRecorder { Method := "OPTIONS", Body := "x" }
        busyState =
      ({ Code := 200, wroteHeader := true, Body := "" }, busyState) :=
  chatHandler_options failingEnv sampleHandlers { Method := "OPTIONS", Body := "x" } busyState
    rfl

/-- C10: makeRESTCall and chatHandler never look at the upstream status code: replacing the
status of every upstream response changes neither the result and calls of makeRESTCall nor
the answer and state of chatHandler; and for any status st (4xx and 5xx included) and body b,
once the request was sent and the client returned st with b, makeRESTCall returns b with a nil
error and the admitted POST is answered 200 with body b, not 500. -/
theorem upstream_status_ignored (env : Env) (h : handlers) :
    (∀ (f : Nat → Nat) (messages : List Message) (calls : Nat),
      makeRESTCall (withStatus env f) h messages calls = makeRESTCall env h messages calls) ∧
    (∀ (f : Nat → Nat) (w : ResponseRecorder) (r : Request) (s : State),
      chatHandler (withStatus env f) h w r s = chatHandler env h w r s) ∧
    (∀ (r : Request) (s : State) (creq : ChatRequest) (req : HttpRequest) (st : Nat)
      (b : String),
      r.Method = "POST" → s.isProcessing = false → env.Decode r.Body = .ok creq →
      Event.httpDo req ∈
        (makeRESTCall env h (systemMessage :: creq.Messages) (tokenCalls s.trace)).2 →
      env.Do req = .ok { StatusCode := st, Body := .ok b } →
      (makeRESTCall env h (systemMessage :: creq.Messages) (tokenCalls s.trace)).1 = (b, none) ∧
      (chatHandler env h NewRecorder r s).1.Code = 200 ∧
      (chatHandler env h NewRecorder r s).1.Body = b) := by
  refine ⟨makeRESTCall_withStatus env h, ?_, ?_⟩
  · intro f w r s
    simp only [chatHandler, chatHandler.admitted, makeRESTCall_withStatus]
    rfl
  · intro r s creq req st b hPost hFree hDec hreq hresp
    have hres := makeRESTCall_passthrough env h _ _ req st b hreq hresp
    rw [chatHandler_post_free env h _ r s hPost hFree, admitted_eq]
    simp [hDec, hres]

/-- Witness of C10: the upstream answers 503 with a body; the client of the proxy gets 200
with that body. -/
theorem upstream_status_ignored_witness :
    (makeRESTCall (mockEnv 10 503) sampleHandlers
      [systemMessage, { Role := "user", Content := "Hello" }] 0).1 = ("invalid-json", none) ∧
    (chatHandler (mockEnv 10 503) sampleHandlers NewRecorder samplePost idle).1.Code = 200 ∧
    (chatHandler (mockEnv 10 503) sampleHandlers NewRecorder samplePost idle).1.Body =
      "invalid-json" :=
  (upstream_status_ignored (mockEnv 10 503) sampleHandlers).2.2 samplePost idle
    { Messages := [{ Role := "user", Content := "Hello" }], Model := "gpt" }
    (makeRESTCall.setHeaders (builtRequest sampleHandlers
      (sampleMarshal { Messages := [systemMessage, { Role := "user", Content := "Hello" }],
                       Model := "DeepSeek-R1" }))
      { Token := "stale", ExpiresOn := 50 }) 503 "invalid-json"
    rfl rfl rfl (by decide) rfl

end DeepseekGo
